import Mathlib

/-!
Verification development for `pyarchiver` (src/compressor.py, src/extractor.py,
src/utils.py).

The Python source is shallowly embedded:

* `glob` models the matching core of Python's `fnmatch.fnmatch` for the
  pattern features the repository's ignore rules use: `*`, `?` and literal
  characters (ASCII; `[seq]` character classes are not used by any claim and
  are not modelled).  On POSIX, `fnmatch` performs no case normalization.
* `matches_ignore_pattern` embeds `PaZipCompressor.matches_ignore_pattern`
  (src/compressor.py lines 46-53): `any(fnmatch.fnmatch(filepath, pattern)
  for pattern in self.ignore_rules)` applied to the full joined path.
* The `os.walk` loop of `PaZipCompressor.compress_directory` (lines 80-91)
  is embedded over an explicit directory-forest type `Entries`;
  `os.path.join` uses the POSIX separator.
* CRC32 (`zlib.crc32` chaining in `PaZipCompressor.calculate_crc32`,
  lines 55-70) is embedded bit-precisely over `Nat` with explicit masking.
* The archive-name regular expression of `PaZipExtractor.__init__`
  (src/extractor.py lines 26-30) is embedded as an explicit backtracking
  scan, greedy in the first capture group, anchored at both ends; the `$`
  anchor keeps Python's semantics of also matching just before a single
  trailing newline.  Python's `\w` and `\d` are modelled at ASCII (all
  filenames appearing in the claims are ASCII).
-/

/-- ASCII model of the regex character class `[\w_-]` used for the baseName
group in src/extractor.py line 27 (`\w` = letters, digits, underscore). -/
def isWordChar (c : Char) : Bool :=
  c.isAlphanum || c == '_' || c == '-'

/-- Hex digit as accepted by the checksum group `[a-fA-F0-9]` of the archive
name regex (src/extractor.py line 27): either case. -/
def isHexChar (c : Char) : Bool :=
  c.isDigit || ('a' ≤ c && c ≤ 'f') || ('A' ≤ c && c ≤ 'F')

/-- Lowercase hex digit, the alphabet of the digests rendered by
`calculate_crc32` (src/compressor.py line 70, format `08x`). -/
def isLowerHexChar (c : Char) : Bool :=
  c.isDigit || ('a' ≤ c && c ≤ 'f')

/-- Uppercase hex letter `A`-`F`. -/
def isUpperHexLetter (c : Char) : Bool :=
  'A' ≤ c && c ≤ 'F'

/-- Matching core of Python's `fnmatch.fnmatch pattern` against a string:
`*` matches any (possibly empty) sequence of characters, including `/`;
`?` matches exactly one character; every other character matches itself.
First argument is the pattern, second the string. -/
def glob : List Char → List Char → Bool
  | [], s => s.isEmpty
  | c :: ps, s =>
    if c = '*' then
      (List.range (s.length + 1)).any fun k => glob ps (s.drop k)
    else
      match s with
      | [] => false
      | d :: ss => (c == '?' || c == d) && glob ps ss

/-- `PaZipCompressor.matches_ignore_pattern` (src/compressor.py lines 46-53):
`any(fnmatch.fnmatch(filepath, pattern) for pattern in self.ignore_rules)`.
The candidate `filepath` is matched as passed by the caller — the full
joined path, with no relativization against the archive root. -/
def matches_ignore_pattern (ignore_rules : List String) (filepath : String) : Bool :=
  ignore_rules.any fun pat => glob pat.data filepath.data

/-- Split a character list on a separator character; mirrors Python's
`str.split` (an empty input yields one empty segment). -/
def splitOnSep (sep : Char) : List Char → List (List Char)
  | [] => [[]]
  | c :: rest =>
    match splitOnSep sep rest with
    | [] => [[c]]
    | seg :: segs => if c = sep then [] :: seg :: segs else (c :: seg) :: segs

/-- Path split on the POSIX separator. -/
def pathSegments (s : String) : List String :=
  (splitOnSep '/' s.data).map String.mk

/-- Candidate path taken relative to the archive root: strip a leading
`root/` when present. -/
def relativeTo (root path : String) : String :=
  if (root.data ++ ['/']).isPrefixOf path.data then
    String.mk (path.data.drop (root.data.length + 1))
  else path

/-- Modelled from the spec: `matches(ruleSet, absolutePath, archiveRoot)`
with gitignore-style semantics (spec sections 4.1 and 9) — the candidate is
evaluated relative to the archive root and a pattern matches when it matches
a relative path segment (a file basename or a directory-prefix component);
the rule set is a pure union of excludes.  This definition exists only to be
compared with `matches_ignore_pattern`, the behaviour of the source. -/
def gitignoreMatches (ruleSet : List String) (absolutePath archiveRoot : String) : Bool :=
  let rel := relativeTo archiveRoot absolutePath
  ruleSet.any fun pat => (pathSegments rel).any fun seg => glob pat.data seg.data

/-- One bit step of the reflected CRC-32 polynomial 0xEDB88320. -/
def crcShiftStep (c : Nat) : Nat :=
  if c % 2 = 1 then Nat.xor (c / 2) 0xEDB88320 else c / 2

/-- CRC-32 lookup-table entry for one byte value (eight bit steps). -/
def crcTableEntry (b : Nat) : Nat :=
  crcShiftStep^[8] b

/-- One byte of CRC-32: shift the register and fold in the table entry. -/
def crc32Round (r b : Nat) : Nat :=
  Nat.xor (r / 256) (crcTableEntry (Nat.xor (r % 256) (b % 256)))

/-- `zlib.crc32(data, prev)`: invert the running value, fold the bytes,
invert back.  Chained calls over consecutive chunks (the 1024-byte reads of
`calculate_crc32`) compose to a single call on the concatenation, so the
whole file content is folded in one call here. -/
def zlibCrc32 (prev : Nat) (bs : List Nat) : Nat :=
  Nat.xor (bs.foldl crc32Round (Nat.xor prev 0xFFFFFFFF)) 0xFFFFFFFF

/-- Lowercase hex digit character for a value below 16 (as rendered by
Python's `x` format code). -/
def hexDigitChar (n : Nat) : Char :=
  if n < 10 then Char.ofNat (48 + n) else Char.ofNat (87 + n)

/-- Python's `08x` rendering of a 32-bit value: eight lowercase hex digits,
most significant first. -/
def toHex8 (n : Nat) : String :=
  String.mk ((List.range 8).map fun i => hexDigitChar (n / 16 ^ (7 - i) % 16))

/-- `PaZipCompressor.calculate_crc32` (src/compressor.py lines 55-70).
The file content is `some bytes` when the file can be opened and `none`
when opening raises `FileNotFoundError`; in the latter case the source
logs the error and returns the placeholder digest `00000000`.  On success
it renders the chained CRC-32 as eight lowercase hex digits after masking
to 32 bits. -/
def calculate_crc32 : Option (List Nat) → String
  | none => "00000000"
  | some bs => toHex8 (Nat.land (zlibCrc32 0 bs) 0xFFFFFFFF)

/-- Modelled from the spec: `calculate_checksum`, imported in
src/extractor.py line 7 from the utils module, is not defined anywhere
under src/.  The spec (sections 4.4 and 6) specifies a single Checksum
component — a fixed-width, eight-lowercase-hex-digit CRC digest of the
archive's bytes, the same rendering `calculate_crc32` uses at packaging
time — so the missing function is modelled as that digest. -/
def calculate_checksum (bs : List Nat) : String :=
  toHex8 (Nat.land (zlibCrc32 0 bs) 0xFFFFFFFF)

/-- Directory forest fed to the `os.walk` loop of `compress_directory`:
an ordered sibling list whose elements are plain files or sub-directories
with their own entries. -/
inductive Entries where
  | nil : Entries
  | file (name : String) (rest : Entries) : Entries
  | dir (name : String) (children : Entries) (rest : Entries) : Entries
deriving DecidableEq

/-- The `for file in files` half of the walk loop (src/compressor.py lines
88-91): every file of the current directory whose joined path does not
match the ignore rules, in order. -/
def filesPass (ignore_rules : List String) (root : String) : Entries → List String
  | .nil => []
  | .file n rest =>
    if matches_ignore_pattern ignore_rules (root ++ "/" ++ n) then
      filesPass ignore_rules root rest
    else
      (root ++ "/" ++ n) :: filesPass ignore_rules root rest
  | .dir _ _ rest => filesPass ignore_rules root rest

/-- The `dirs[:] = [...]` pruning plus descent of `os.walk` (src/compressor.py
lines 82-87): a sub-directory whose joined path matches the rules is pruned
before descending; otherwise the walk yields its files and then recurses
into its own sub-directories, in order. -/
def dirsPass (ignore_rules : List String) (root : String) : Entries → List String
  | .nil => []
  | .file _ rest => dirsPass ignore_rules root rest
  | .dir n children rest =>
    (if matches_ignore_pattern ignore_rules (root ++ "/" ++ n) then []
     else
       filesPass ignore_rules (root ++ "/" ++ n) children
         ++ dirsPass ignore_rules (root ++ "/" ++ n) children)
      ++ dirsPass ignore_rules root rest

/-- The complete `files_to_compress` list built by the walk loop of
`compress_directory` (src/compressor.py lines 80-91): the top directory's
surviving files, then each surviving sub-tree depth-first. -/
def files_to_compress (ignore_rules : List String) (directory : String)
    (entries : Entries) : List String :=
  filesPass ignore_rules directory entries ++ dirsPass ignore_rules directory entries

/-- `os.path.basename(os.path.normpath(p))` as used on src/compressor.py
line 77: trailing separators stripped, then the final path segment.
(The `..`-collapsing of `normpath` is not exercised by any claim.) -/
def baseNameOf (p : String) : String :=
  let stripped := String.mk ((p.data.reverse.dropWhile fun c => c = '/').reverse)
  (pathSegments stripped).getLastD ""

/-- Observable outcome of one `PaZipCompressor.compress_directory` call:
the Python return value, the final archive file created by the
`os.rename` (if any), and whether the empty-file-set warning was logged. -/
structure CompressResult where
  returned : Option String
  archiveFile : Option String
  warned : Bool
deriving DecidableEq

/-- `PaZipCompressor.compress_directory` (src/compressor.py lines 72-119).
External inputs are explicit: `timestamp` is the `time.strftime` result,
`codecOk` is whether the `py7zr` write block (and the rename) runs without
raising, and `archiveBytes` is the byte content of the temporary archive
the codec produced.  On the empty-file-set branch the source warns and
returns `None`; on the exception branch it removes the temporary file and
returns `None`; on the success branch it renames the temporary file to
`directory_name_timestamp_crc32.7z` and falls off the end of the function,
so it also returns `None`. -/
def compress_directory (ignore_rules : List String) (directory : String)
    (entries : Entries) (timestamp : String) (codecOk : Bool)
    (archiveBytes : List Nat) : CompressResult :=
  let directory_name := baseNameOf directory
  let files := files_to_compress ignore_rules directory entries
  if files.isEmpty then
    { returned := none, archiveFile := none, warned := true }
  else if codecOk then
    let crc32_checksum := calculate_crc32 (some archiveBytes)
    let archive_path := directory_name ++ "_" ++ timestamp ++ "_" ++ crc32_checksum ++ ".7z"
    { returned := none, archiveFile := some archive_path, warned := false }
  else
    { returned := none, archiveFile := none, warned := false }

/-- Shape of the timestamp capture group `\d{8}\d{6}[+-]\d{4}` of the
archive name regex (src/extractor.py line 27): fourteen digits, one sign,
four digits — nineteen characters in all. -/
def tsshape (l : List Char) : Bool :=
  (l.length == 19) && (l.take 14).all (fun c => c.isDigit)
    && (match l.drop 14 with
        | c :: _ => (c == '+') || (c == '-')
        | [] => false)
    && (l.drop 15).all (fun c => c.isDigit)

/-- Shape of the checksum capture group `[a-fA-F0-9]{8}`: exactly eight
hex characters of either case. -/
def checksumShape (l : List Char) : Bool :=
  (l.length == 8) && l.all isHexChar

/-- The fixed-width tail of the archive name regex after the baseName
group's separator: the nineteen-character timestamp group, an underscore,
the eight-character checksum group, and the literal extension `.7z`
anchored by `$`.  Python's `$` (without `re.MULTILINE`) matches at the
very end of the string and also just before one trailing newline, so the
tail after the checksum group is `.7z` or `.7z` followed by a single
`'\n'`. -/
def matchTail (l : List Char) : Option (String × String) :=
  if tsshape (l.take 19) = true ∧ (l.drop 19).take 1 = ['_']
      ∧ checksumShape ((l.drop 20).take 8) = true
      ∧ ((l.drop 20).drop 8 = ['.', '7', 'z']
          ∨ (l.drop 20).drop 8 = ['.', '7', 'z', '\n']) then
    some (String.mk (l.take 19), String.mk ((l.drop 20).take 8))
  else none

/-- One backtracking attempt of the archive name regex: the baseName group
`[\w_-]+` takes the first `i` characters (nonempty, all word characters),
the next character is the literal `_`, and `matchTail` consumes the rest. -/
def parseAt (cs : List Char) (i : Nat) : Option (String × String × String) :=
  if cs.take i ≠ [] ∧ (cs.take i).all isWordChar = true ∧ (cs.drop i).take 1 = ['_'] then
    (matchTail (cs.drop (i + 1))).map fun tc => (String.mk (cs.take i), tc.1, tc.2)
  else none

/-- The anchored archive name match of `PaZipExtractor.__init__`
(src/extractor.py lines 26-30) applied to the basename of the archive
path: `re.match` with a greedy first group is modelled by trying the
longest baseName prefix first. -/
def parseArchiveName (s : String) : Option (String × String × String) :=
  ((List.range s.data.length).reverse).findSome? (parseAt s.data)

/-- The final archive filename built on src/compressor.py line 108:
the directory name, the timestamp and the CRC-32 digest joined by
underscores, with the `.7z` extension. -/
def archiveFileName (directory_name timestamp crc32_checksum : String) : String :=
  directory_name ++ "_" ++ timestamp ++ "_" ++ crc32_checksum ++ ".7z"

/-- Failure modes of `PaZipExtractor.__init__`, one per `assert` in source
order (src/extractor.py lines 20-37). -/
inductive ExtractError where
  | archiveMissing : ExtractError
  | outputDirMissing : ExtractError
  | invalidArchiveName : ExtractError
  | checksumMismatch : ExtractError
deriving DecidableEq

/-- `PaZipExtractor.__init__` (src/extractor.py lines 13-37): require an
existing archive file and output directory, match the archive basename
against the name pattern, then compare the computed content checksum with
the checksum capture group by exact string equality.  `archiveBytes` is
the byte content of the archive file; the checksum helper is the
spec-modelled `calculate_checksum`.  On success the parsed identity triple
is returned (the source then joins it onto the output directory as the
extraction target); extraction itself (`extract_archive`) only runs on a
successfully constructed extractor. -/
def extractorInit (archiveIsFile : Bool) (outputDirOk : Bool)
    (archiveBaseName : String) (archiveBytes : List Nat) :
    Except ExtractError (String × String × String) :=
  if !archiveIsFile then .error .archiveMissing
  else if !outputDirOk then .error .outputDirMissing
  else
    match parseArchiveName archiveBaseName with
    | none => .error .invalidArchiveName
    | some (b, t, c) =>
      if calculate_checksum archiveBytes = c then .ok (b, t, c)
      else .error .checksumMismatch

/-- The names defined at the top level of src/utils.py (lines 1-68):
a color constants class and the logging setup function. -/
def utilsModuleNames : List String := ["TerminalColors", "setup_logging"]

/-- The names src/extractor.py line 7 imports from the utils module. -/
def extractorUtilsImports : List String := ["calculate_checksum", "setup_logging"]

/-- A Python `from utils import ...` statement succeeds only when every
imported name is bound in the utils module; otherwise the import raises
and the extractor module never loads. -/
def extractorImportOk : Bool :=
  extractorUtilsImports.all fun n => utilsModuleNames.contains n

/-! Helper lemmas about the embedded definitions. -/

theorem string_eta (s : String) : String.mk s.data = s := rfl

theorem tsshape_length {l : List Char} (h : tsshape l = true) : l.length = 19 := by
  unfold tsshape at h
  simp only [Bool.and_eq_true, beq_iff_eq] at h
  exact h.1.1.1

theorem checksumShape_length {l : List Char} (h : checksumShape l = true) : l.length = 8 := by
  unfold checksumShape at h
  simp only [Bool.and_eq_true, beq_iff_eq] at h
  exact h.1

theorem findSome?_eq_of_unique {α β : Type} (l : List α) (f : α → Option β) (i : α) (v : β)
    (hmem : i ∈ l) (hf : f i = some v) (hnone : ∀ j, j ≠ i → f j = none) :
    l.findSome? f = some v := by
  induction l with
  | nil => cases hmem
  | cons a l ih =>
    rw [List.findSome?_cons]
    by_cases ha : a = i
    · subst ha; rw [hf]
    · rw [hnone a ha]
      rcases List.mem_cons.mp hmem with h1 | h1
      · exact absurd h1.symm ha
      · exact ih h1

theorem matchTail_eq_some {l : List Char} {t c : String} (h : matchTail l = some (t, c)) :
    (l = t.data ++ '_' :: (c.data ++ ['.', '7', 'z'])
        ∨ l = t.data ++ '_' :: (c.data ++ ['.', '7', 'z', '\n']))
      ∧ tsshape t.data = true ∧ checksumShape c.data = true := by
  unfold matchTail at h
  split at h
  · rename_i hcond
    obtain ⟨h1, h2, h3, h4⟩ := hcond
    obtain ⟨rfl, rfl⟩ : String.mk (l.take 19) = t ∧ String.mk ((l.drop 20).take 8) = c := by
      cases h; exact ⟨rfl, rfl⟩
    refine ⟨?_, h1, h3⟩
    rcases h4 with h4 | h4
    · left
      conv_lhs => rw [← List.take_append_drop 19 l]
      congr 1
      conv_lhs => rw [← List.take_append_drop 1 (l.drop 19)]
      rw [h2]
      rw [List.drop_drop]
      norm_num
      conv_lhs => rw [← List.take_append_drop 8 (l.drop 20)]
      rw [h4]
    · right
      conv_lhs => rw [← List.take_append_drop 19 l]
      congr 1
      conv_lhs => rw [← List.take_append_drop 1 (l.drop 19)]
      rw [h2]
      rw [List.drop_drop]
      norm_num
      conv_lhs => rw [← List.take_append_drop 8 (l.drop 20)]
      rw [h4]
  · cases h

theorem matchTail_intended (T C : List Char)
    (hT : tsshape T = true) (hC : checksumShape C = true) :
    matchTail (T ++ '_' :: (C ++ ['.', '7', 'z'])) = some (String.mk T, String.mk C) := by
  have hT19 : T.length = 19 := tsshape_length hT
  have hC8 : C.length = 8 := checksumShape_length hC
  have htake : (T ++ '_' :: (C ++ ['.', '7', 'z'])).take 19 = T := List.take_left' hT19
  have hdrop : (T ++ '_' :: (C ++ ['.', '7', 'z'])).drop 19 = '_' :: (C ++ ['.', '7', 'z']) :=
    List.drop_left' hT19
  have hdrop20 : (T ++ '_' :: (C ++ ['.', '7', 'z'])).drop 20 = C ++ ['.', '7', 'z'] := by
    have h20 : (20 : Nat) = 19 + 1 := by norm_num
    rw [h20, ← List.drop_drop, hdrop]
    rfl
  unfold matchTail
  rw [htake, hdrop, hdrop20, List.take_left' hC8, List.drop_left' hC8]
  rw [if_pos ⟨hT, rfl, hC, Or.inl rfl⟩]

theorem matchTail_underscore_head (X : List Char) : matchTail ('_' :: X) = none := by
  have h1 : tsshape (('_' :: X).take 19) = false := by
    have ht : ('_' :: X).take 19 = '_' :: X.take 18 := rfl
    rw [ht]
    unfold tsshape
    have ht2 : ('_' :: X.take 18).take 14 = '_' :: (X.take 18).take 13 := rfl
    rw [ht2, List.all_cons]
    have hd : Char.isDigit '_' = false := by decide
    rw [hd]
    simp
  unfold matchTail
  apply if_neg
  rintro ⟨hc1, -, -, -⟩
  rw [h1] at hc1
  cases hc1

theorem parseAt_eq_some {cs : List Char} {i : Nat} {b t c : String}
    (h : parseAt cs i = some (b, t, c)) :
    (cs = b.data ++ '_' :: (t.data ++ '_' :: (c.data ++ ['.', '7', 'z']))
        ∨ cs = b.data ++ '_' :: (t.data ++ '_' :: (c.data ++ ['.', '7', 'z', '\n'])))
      ∧ b.data ≠ [] ∧ b.data.all isWordChar = true
      ∧ tsshape t.data = true ∧ checksumShape c.data = true := by
  unfold parseAt at h
  split at h
  · rename_i hcond
    obtain ⟨h1, h2, h3⟩ := hcond
    rw [Option.map_eq_some'] at h
    obtain ⟨⟨t0, c0⟩, hmt, heq⟩ := h
    obtain ⟨rfl, rfl, rfl⟩ : String.mk (cs.take i) = b ∧ t0 = t ∧ c0 = c := by
      cases heq; exact ⟨rfl, rfl, rfl⟩
    obtain ⟨htail, ht, hc⟩ := matchTail_eq_some hmt
    refine ⟨?_, h1, h2, ht, hc⟩
    rcases htail with htail | htail
    · left
      conv_lhs => rw [← List.take_append_drop i cs]
      congr 1
      conv_lhs => rw [← List.take_append_drop 1 (cs.drop i)]
      rw [h3, List.drop_drop]
      norm_num
      exact htail
    · right
      conv_lhs => rw [← List.take_append_drop i cs]
      congr 1
      conv_lhs => rw [← List.take_append_drop 1 (cs.drop i)]
      rw [h3, List.drop_drop]
      norm_num
      exact htail
  · cases h

theorem parseAt_length {cs : List Char} {i : Nat} {v : String × String × String}
    (h : parseAt cs i = some v) : cs.length = i + 32 ∨ cs.length = i + 33 := by
  obtain ⟨b, t, c⟩ := v
  have hi : i ≤ cs.length := by
    by_contra hlt
    push_neg at hlt
    unfold parseAt at h
    rw [List.drop_eq_nil_of_le (Nat.le_of_lt hlt)] at h
    simp at h
  have htk : cs.take i = b.data := by
    unfold parseAt at h
    split at h
    · rw [Option.map_eq_some'] at h
      obtain ⟨tc, _, heq⟩ := h
      cases heq
      rfl
    · cases h
  obtain ⟨hl, _, _, ht, hc⟩ := parseAt_eq_some h
  have hT19 : t.data.length = 19 := tsshape_length ht
  have hC8 : c.data.length = 8 := checksumShape_length hc
  have hbl : b.data.length = i := by
    rw [← htk, List.length_take]
    exact Nat.min_eq_left hi
  rcases hl with hl | hl
  · left
    have hlen : cs.length = b.data.length + 32 := by
      rw [hl]
      simp only [List.length_append, List.length_cons, List.length_nil, hT19, hC8]
    omega
  · right
    have hlen : cs.length = b.data.length + 33 := by
      rw [hl]
      simp only [List.length_append, List.length_cons, List.length_nil, hT19, hC8]
    omega

theorem parseAt_intended (B T C : List Char)
    (hB1 : B ≠ []) (hB2 : B.all isWordChar = true)
    (hT : tsshape T = true) (hC : checksumShape C = true) :
    parseAt (B ++ '_' :: (T ++ '_' :: (C ++ ['.', '7', 'z']))) B.length
      = some (String.mk B, String.mk T, String.mk C) := by
  have htake : (B ++ '_' :: (T ++ '_' :: (C ++ ['.', '7', 'z']))).take B.length = B :=
    List.take_left' rfl
  have hdrop : (B ++ '_' :: (T ++ '_' :: (C ++ ['.', '7', 'z']))).drop B.length
      = '_' :: (T ++ '_' :: (C ++ ['.', '7', 'z'])) := List.drop_left' rfl
  have hdrop1 : (B ++ '_' :: (T ++ '_' :: (C ++ ['.', '7', 'z']))).drop (B.length + 1)
      = T ++ '_' :: (C ++ ['.', '7', 'z']) := by
    rw [← List.drop_drop, hdrop]
    rfl
  unfold parseAt
  rw [htake, hdrop, hdrop1, matchTail_intended T C hT hC]
  rw [if_pos ⟨hB1, hB2, rfl⟩]
  rfl

theorem archiveFileName_data (b t c : String) :
    (archiveFileName b t c).data
      = b.data ++ '_' :: (t.data ++ '_' :: (c.data ++ ['.', '7', 'z'])) := by
  unfold archiveFileName
  simp only [String.data_append]
  simp [List.append_assoc]

theorem parseArchiveName_sound (s b t c : String)
    (h : parseArchiveName s = some (b, t, c)) :
    (s.data = b.data ++ '_' :: (t.data ++ '_' :: (c.data ++ ['.', '7', 'z']))
        ∨ s.data = b.data ++ '_' :: (t.data ++ '_' :: (c.data ++ ['.', '7', 'z', '\n'])))
      ∧ b.data ≠ [] ∧ b.data.all isWordChar = true
      ∧ tsshape t.data = true ∧ checksumShape c.data = true := by
  unfold parseArchiveName at h
  obtain ⟨i, hmem, hpi⟩ := List.exists_of_findSome?_eq_some h
  exact parseAt_eq_some hpi

theorem toHex8_data (n : Nat) :
    (toHex8 n).data = (List.range 8).map fun i => hexDigitChar (n / 16 ^ (7 - i) % 16) := rfl

theorem hexDigitChar_lower : ∀ m, m < 16 → isLowerHexChar (hexDigitChar m) = true := by decide

theorem toHex8_all_lower (n : Nat) : (toHex8 n).data.all isLowerHexChar = true := by
  rw [toHex8_data, List.all_eq_true]
  intro x hx
  rw [List.mem_map] at hx
  obtain ⟨i, hi, rfl⟩ := hx
  exact hexDigitChar_lower _ (Nat.mod_lt _ (by norm_num))

theorem upperHex_not_lower (ch : Char) (h : isUpperHexLetter ch = true) :
    isLowerHexChar ch = false := by
  unfold isUpperHexLetter at h
  unfold isLowerHexChar
  simp only [Bool.and_eq_true, decide_eq_true_eq, Char.le_def] at h
  simp only [Bool.or_eq_false_iff, Bool.and_eq_false_iff, Char.isDigit,
    decide_eq_false_iff_not, Char.le_def]
  simp only [UInt32.le_def, BitVec.le_def] at h ⊢
  have e1 : ('A').val.toBitVec.toNat = 65 := rfl
  have e2 : ('F').val.toBitVec.toNat = 70 := rfl
  have e3 : ('a').val.toBitVec.toNat = 97 := rfl
  have e4 : ('f').val.toBitVec.toNat = 102 := rfl
  have e5 : (UInt32.toBitVec 48).toNat = 48 := rfl
  have e6 : (UInt32.toBitVec 57).toNat = 57 := rfl
  rw [e1, e2] at h
  rw [e3, e4, e5, e6]
  omega

/-! Claim theorems. -/

/-- C1: the claim states that `matches` evaluates the candidate path
relative to the archive root with gitignore-style semantics.  The source's
`matches_ignore_pattern` instead runs `fnmatch` on the full joined path:
with rule set `cache` and archive root `project`, the walk passes
`project/cache`, which `fnmatch` does not match against `cache`, so the
directory is not excluded — while the gitignore-style evaluation of the
relative form `cache` mandated by the claim does match. -/
theorem claim_C1_matches_absolute_not_relative :
    matches_ignore_pattern ["cache"] "project/cache" = false
      ∧ gitignoreMatches ["cache"] "project/cache" "project" = true := by
  decide

/-- C2: on the claim's own scenario — directory `project` holding
`a.txt`, `b.log` and `cache/x.bin`, rules `*.log` and `cache` — the
source's walk collects `project/cache/x.bin` as well, because the `cache`
rule never matches the joined path `project/cache` under `fnmatch`; the
claim says only `a.txt` is collected. -/
theorem claim_C2_cache_descendant_collected :
    files_to_compress ["*.log", "cache"] "project"
        (.file "a.txt" (.file "b.log" (.dir "cache" (.file "x.bin" .nil) .nil)))
      = ["project/a.txt", "project/cache/x.bin"] := by
  decide

/-- C3: src/extractor.py line 7 imports `calculate_checksum` from the
utils module, but src/utils.py binds no such name, so the import — and
with it every construction of the extractor — fails before any
validation can run. -/
theorem claim_C3_checksum_helper_unimportable :
    extractorImportOk = false
      ∧ "calculate_checksum" ∈ extractorUtilsImports
      ∧ "calculate_checksum" ∉ utilsModuleNames := by
  decide

/-- C4: for every baseName of word/hyphen/underscore characters, every
well-formed timestamp and every eight-hex-digit checksum, parsing the
formatted archive filename returns exactly the original triple. -/
theorem claim_C4_parse_format_roundtrip (b t c : String)
    (hb1 : b.data ≠ []) (hb2 : b.data.all isWordChar = true)
    (ht : tsshape t.data = true) (hc : checksumShape c.data = true) :
    parseArchiveName (archiveFileName b t c) = some (b, t, c) := by
  have hdata := archiveFileName_data b t c
  have hT19 : t.data.length = 19 := tsshape_length ht
  have hC8 : c.data.length = 8 := checksumShape_length hc
  have hn : (archiveFileName b t c).data.length = b.data.length + 32 := by
    rw [hdata]
    simp only [List.length_append, List.length_cons, List.length_nil, hT19, hC8]
  unfold parseArchiveName
  apply findSome?_eq_of_unique _ _ b.data.length
  · rw [List.mem_reverse, List.mem_range, hn]
    omega
  · rw [hdata]
    have h1 := parseAt_intended b.data t.data c.data hb1 hb2 ht hc
    simpa [string_eta] using h1
  · intro j hj
    cases hpj : parseAt (archiveFileName b t c).data j with
    | none => rfl
    | some v =>
      exfalso
      have h2 := parseAt_length hpj
      rw [hn] at h2
      rcases h2 with h2 | h2
      · exact hj (by omega)
      · have hj1 : b.data.length = j + 1 := by omega
        rw [hdata] at hpj
        have hdd : (b.data ++ '_' :: (t.data ++ '_' :: (c.data ++ ['.', '7', 'z']))).drop (j + 1)
            = '_' :: (t.data ++ '_' :: (c.data ++ ['.', '7', 'z'])) := List.drop_left' hj1
        unfold parseAt at hpj
        split at hpj
        · rw [hdd, matchTail_underscore_head] at hpj
          cases hpj
        · cases hpj

/-- Witness for C4 at a concrete identity triple. -/
theorem claim_C4_parse_format_roundtrip_witness :
    parseArchiveName (archiveFileName "pkg-1" "20240101120000+0800" "00c0ffee")
      = some ("pkg-1", "20240101120000+0800", "00c0ffee") :=
  claim_C4_parse_format_roundtrip "pkg-1" "20240101120000+0800" "00c0ffee"
    (by decide) (by decide) (by decide) (by decide)

/-- C5: whenever the archive filename parses but the computed content
checksum differs from the embedded checksum field, the extractor
constructor stops with the checksum-mismatch error — an error distinct
from the name-parse error — and extraction is never reached. -/
theorem claim_C5_checksum_mismatch_rejected (f b t c : String) (bs : List Nat)
    (hparse : parseArchiveName f = some (b, t, c))
    (hne : calculate_checksum bs ≠ c) :
    extractorInit true true f bs = .error .checksumMismatch
      ∧ ExtractError.checksumMismatch ≠ ExtractError.invalidArchiveName := by
  refine ⟨?_, by decide⟩
  unfold extractorInit
  simp [hparse, hne]

/-- Witness for C5: a parseable name whose embedded checksum is not the
digest of the (empty) archive content. -/
theorem claim_C5_checksum_mismatch_rejected_witness :
    extractorInit true true "a_12345678901234+0000_deadbeef.7z" []
        = .error .checksumMismatch
      ∧ ExtractError.checksumMismatch ≠ ExtractError.invalidArchiveName :=
  claim_C5_checksum_mismatch_rejected "a_12345678901234+0000_deadbeef.7z"
    "a" "12345678901234+0000" "deadbeef" [] (by decide) (by decide)

/-- C6 counterexample: the claim says every filename deviating from the
canonical `baseName_timestamp_checksum.7z` pattern — in particular any
extension other than `.7z` — is rejected with a parse error.  But
Python's `$` anchor also matches just before one trailing newline
(a legal filename character on Linux), so the source's `re.match`
accepts `foo_20240101120000+0000_abcd1234.7z` followed by a newline,
a name that is not the canonical form, with no parse error. -/
theorem claim_C6_counterexample :
    parseArchiveName "foo_20240101120000+0000_abcd1234.7z\n"
        = some ("foo", "20240101120000+0000", "abcd1234")
      ∧ "foo_20240101120000+0000_abcd1234.7z\n"
        ≠ archiveFileName "foo" "20240101120000+0000" "abcd1234" := by
  decide

/-- C6 amended: every filename the archive-name matcher accepts
decomposes into a nonempty word-character baseName, a
fourteen-digit-sign-four-digit timestamp, an eight-hex-digit checksum
and the literal `.7z` extension, optionally followed by one trailing
newline (which Python's `$` anchor tolerates) — every other deviation
fails to parse — and the two concrete deviants of the claim (a missing
checksum segment, a four-hex checksum) are rejected. -/
theorem claim_C6_malformed_names_rejected_amended :
    (∀ s b t c : String, parseArchiveName s = some (b, t, c) →
        (s.data = b.data ++ '_' :: (t.data ++ '_' :: (c.data ++ ['.', '7', 'z']))
            ∨ s.data = b.data ++ '_' :: (t.data ++ '_' :: (c.data ++ ['.', '7', 'z', '\n'])))
          ∧ b.data ≠ [] ∧ b.data.all isWordChar = true
          ∧ tsshape t.data = true ∧ checksumShape c.data = true)
      ∧ parseArchiveName "foo_20240101120000+0000.7z" = none
      ∧ parseArchiveName "foo_20240101120000+0000_1234.7z" = none := by
  refine ⟨?_, by decide, by decide⟩
  intro s b t c h
  exact parseArchiveName_sound s b t c h

/-- Witness for the amended C6: the decomposition instantiated at an
accepted concrete filename. -/
theorem claim_C6_malformed_names_rejected_amended_witness :
    (("foo_12345678901234+0000_abcd1234.7z" : String).data
        = ("foo" : String).data
            ++ '_' :: (("12345678901234+0000" : String).data
              ++ '_' :: (("abcd1234" : String).data ++ ['.', '7', 'z']))
      ∨ ("foo_12345678901234+0000_abcd1234.7z" : String).data
        = ("foo" : String).data
            ++ '_' :: (("12345678901234+0000" : String).data
              ++ '_' :: (("abcd1234" : String).data ++ ['.', '7', 'z', '\n'])))
      ∧ ("foo" : String).data ≠ []
      ∧ ("foo" : String).data.all isWordChar = true
      ∧ tsshape ("12345678901234+0000" : String).data = true
      ∧ checksumShape ("abcd1234" : String).data = true :=
  claim_C6_malformed_names_rejected_amended.1 "foo_12345678901234+0000_abcd1234.7z"
    "foo" "12345678901234+0000" "abcd1234" (by decide)

/-- C7: on a successful run — nonempty file set, codec and rename
succeed — `compress_directory` creates the final archive yet returns
`None`: the source's success branch has no return statement, so the
final archive path is never handed back to the caller (the repository's
own test asserts a non-`None` return). -/
theorem claim_C7_success_returns_nothing :
    (compress_directory [] "project" (.file "a.txt" .nil)
        "20240101120000+0000" true []).archiveFile
        = some "project_20240101120000+0000_00000000.7z"
      ∧ (compress_directory [] "project" (.file "a.txt" .nil)
        "20240101120000+0000" true []).returned = none := by
  decide

/-- C8 counterexample: on a file that cannot be opened, `calculate_crc32`
does not fail — it returns the placeholder digest `00000000`. -/
theorem claim_C8_counterexample : calculate_crc32 none = "00000000" := by
  decide

/-- C8 amended: on a missing file `calculate_crc32` logs and returns the
sentinel digest `00000000`, which is indistinguishable from the genuine
digest of empty content; no read error reaches the caller. -/
theorem claim_C8_sentinel_digest :
    calculate_crc32 none = "00000000" ∧ calculate_crc32 (some []) = "00000000" := by
  decide

/-- C9 counterexample: when every file is filtered out, the source warns
and returns immediately — no archive (not even an empty one) is written,
contrary to the claim that packaging proceeds through writing and
finalizing. -/
theorem claim_C9_counterexample :
    compress_directory ["*"] "project" (.file "a.txt" .nil)
        "20240101120000+0000" true []
      = { returned := none, archiveFile := none, warned := true } := by
  decide

/-- C9 amended: whenever filtering leaves no files, `compress_directory`
emits the warning and aborts, returning `None` with no archive created. -/
theorem claim_C9_empty_set_warns_and_aborts (ignore_rules : List String)
    (directory : String) (entries : Entries) (timestamp : String)
    (codecOk : Bool) (archiveBytes : List Nat)
    (h : files_to_compress ignore_rules directory entries = []) :
    compress_directory ignore_rules directory entries timestamp codecOk archiveBytes
      = { returned := none, archiveFile := none, warned := true } := by
  unfold compress_directory
  simp [h]

/-- Witness for the amended C9 on a concrete all-filtered directory. -/
theorem claim_C9_empty_set_warns_and_aborts_witness :
    compress_directory ["*.log"] "logs" (.file "b.log" .nil)
        "20240101120000+0000" true []
      = { returned := none, archiveFile := none, warned := true } :=
  claim_C9_empty_set_warns_and_aborts ["*.log"] "logs" (.file "b.log" .nil)
    "20240101120000+0000" true [] (by decide)

/-- C10: if the embedded checksum field of a parseable archive name
contains an uppercase hex letter, validation fails with the checksum
mismatch for every possible archive content — the computed digest is
rendered in lowercase and compared by exact string equality — even when
the digest agrees with the field case-insensitively. -/
theorem claim_C10_uppercase_checksum_never_validates (f b t c : String) (ch : Char)
    (hparse : parseArchiveName f = some (b, t, c))
    (hch : ch ∈ c.data) (hup : isUpperHexLetter ch = true) :
    ∀ archiveBytes : List Nat,
      extractorInit true true f archiveBytes = .error .checksumMismatch := by
  intro bs
  have hne : calculate_checksum bs ≠ c := by
    intro heq
    have hcd : c.data = (toHex8 (Nat.land (zlibCrc32 0 bs) 0xFFFFFFFF)).data := by
      rw [← heq]
      rfl
    rw [hcd] at hch
    have hlow := toHex8_all_lower (Nat.land (zlibCrc32 0 bs) 0xFFFFFFFF)
    rw [List.all_eq_true] at hlow
    have h1 : isLowerHexChar ch = true := hlow ch hch
    have h2 := upperHex_not_lower ch hup
    rw [h1] at h2
    cases h2
  unfold extractorInit
  simp [hparse, hne]

/-- Witness for C10: `D202EF8D` is accepted by the name pattern and
equals the computed digest of the single-zero-byte content
case-insensitively (`calculate_checksum [0] = "d202ef8d"`), yet the
extractor still reports a checksum mismatch. -/
theorem claim_C10_uppercase_checksum_never_validates_witness :
    calculate_checksum [0] = "d202ef8d"
      ∧ extractorInit true true "a_12345678901234+0000_D202EF8D.7z" [0]
        = .error .checksumMismatch :=
  ⟨by decide,
    claim_C10_uppercase_checksum_never_validates "a_12345678901234+0000_D202EF8D.7z"
      "a" "12345678901234+0000" "D202EF8D" 'D' (by decide) (by decide) (by decide) [0]⟩
